import Mathlib

/-!
Verification of the Go_proxy repository core against its specification.

The Go source is shallowly embedded: float64 values (latency, speed,
score, timestamps) are modelled as rationals, machine randomness is an
explicit parameter, network probe outcomes are explicit parameters, and
Go pointers (the pool stores slices of Proxy pointers) are modelled as
natural-number references into an explicit heap where aliasing matters.
-/

namespace GoProxy

/-- Embedding of the Proxy struct from src/proxy/rotator.go.  Fields not
touched by any verified operation (Location, Country, Province, City,
Region, IsPremium) are kept where a claim could observe them. -/
structure Proxy where
  address : String
  protocol : String
  latency : ℚ
  speed : ℚ
  anonymity : String
  score : ℚ
  lastChecked : ℚ
  failCount : ℕ
  isPremium : Bool
  region : String
deriving DecidableEq, Repr

/-! ## CandidatePool (src/proxy/rotator.go)

The pool operations are functions on the list of valid (or raw)
proxies; the reader/writer lock serialises them, so each Go method is
one Lean function from pool state to pool state or result. -/

/-- AddRawProxies from rotator.go lines 69-82: builds a seen map from
the current raw list, then appends each input proxy whose address is
not in the map, marking it seen.  The accumulator is the pair
(current raw list, seen address list). -/
def addRawStep (acc : List Proxy × List String) (p : Proxy) : List Proxy × List String :=
  if p.address ∈ acc.2 then acc else (acc.1 ++ [p], acc.2 ++ [p.address])

def AddRawProxies (raw : List Proxy) (input : List Proxy) : List Proxy :=
  (input.foldl addRawStep (raw, raw.map (·.address))).1

/-- CleanupProxies from rotator.go lines 134-146: keeps exactly the
valid proxies with FailCount < 5 and now - LastChecked <= maxAge
(time.Since(p.LastChecked) <= maxAge), preserving order. -/
def CleanupProxies (now maxAge : ℚ) (valid : List Proxy) : List Proxy :=
  valid.filter (fun p => p.failCount < 5 && decide (now - p.lastChecked ≤ maxAge))

/-- The filter predicate of GetFilteredAndSortedProxies, rotator.go
line 159: (maxLatency < 0 or Latency <= maxLatency) and
(minSpeed < 0 or Speed >= minSpeed). -/
def passesFilter (maxLatency minSpeed : ℚ) (p : Proxy) : Bool :=
  (decide (maxLatency < 0) || decide (p.latency ≤ maxLatency)) &&
  (decide (minSpeed < 0) || decide (p.speed ≥ minSpeed))

/-- Stable insertion: places p before the first element whose latency is
not strictly below p.latency.  This is the standard model of Go
sort.SliceStable with less(i,j) = Latency i < Latency j. -/
def insertByLatency (p : Proxy) : List Proxy → List Proxy
  | [] => [p]
  | q :: l => if q.latency < p.latency then q :: insertByLatency p l else p :: q :: l

/-- Stable sort ascending by latency, modelling sort.SliceStable at
rotator.go lines 165-167. -/
def sortByLatency : List Proxy → List Proxy
  | [] => []
  | p :: l => insertByLatency p (sortByLatency l)

/-- GetFilteredAndSortedProxies from rotator.go lines 153-170. -/
def GetFilteredAndSortedProxies (maxLatency minSpeed : ℚ) (valid : List Proxy) : List Proxy :=
  sortByLatency (valid.filter (passesFilter maxLatency minSpeed))

/-- Selection weight of a proxy, rotator.go lines 187 and 195:
1/(Latency+0.1) + Speed*0.1. -/
def weight (p : Proxy) : ℚ :=
  1 / (p.latency + 1/10) + p.speed * (1/10)

/-- Total weight of the valid list, rotator.go lines 185-188. -/
def totalScore (valid : List Proxy) : ℚ :=
  (valid.map weight).sum

/-- The selection loop of GetNextProxy, rotator.go lines 193-199:
accumulates weights and returns the first proxy whose running sum is
at least randScore; none if the list is exhausted. -/
def selectLoop (randScore : ℚ) (running : ℚ) : List Proxy → Option Proxy
  | [] => none
  | p :: l =>
    if running + weight p ≥ randScore then some p
    else selectLoop randScore (running + weight p) l

/-- GetNextProxy from rotator.go lines 177-203.  The call
rand.Float64() is modelled by the parameter u (a value in [0,1) at
runtime); randScore = u * totalScore as at line 192.  Returns none on
an empty valid list and falls back to the last element when the loop
finds nothing. -/
def GetNextProxy (valid : List Proxy) (u : ℚ) : Option Proxy :=
  match valid with
  | [] => none
  | _ :: _ =>
    match selectLoop (u * totalScore valid) 0 valid with
    | some p => some p
    | none => valid.getLast?

/-- Modelled from the specification wording of SelectWeighted (spec
section 4.1): given the drawn value r, walk the candidates and return
the first one whose cumulative weight (sum of the weights of the
candidates up to and including it) is at least r; if none qualifies
return the last candidate; return none on an empty set.  Written
against the spec text, to be compared with GetNextProxy. -/
def cumWeight (valid : List Proxy) (k : ℕ) : ℚ :=
  ((valid.take k).map weight).sum

def specSelectWeighted (valid : List Proxy) (r : ℚ) : Option Proxy :=
  match valid with
  | [] => none
  | _ :: _ =>
    match (List.range valid.length).find? (fun i => decide (cumWeight valid (i + 1) ≥ r)) with
    | some i => valid[i]?
    | none => valid.getLast?

/-! ## ValidationEngine (src/checker/checker.go)

Network effects are explicit parameters: a ProbeEnv records the
outcome of createProxyClient, the reachability probe against
httpbin.org, the JSON decode of its body, and the checkSpeed download
probe.  The Go methods mutate the proxy through a pointer; here they
return the updated proxy together with the returned
(latency, anonymity, error) triple, with the error case encoded as
none. -/

/-- Outcomes of the external effects of one CheckConnectivityAndSpeed
call. -/
structure ProbeEnv where
  now : ℚ
  clientOk : Bool
  reachOk : Bool
  measuredLatency : ℚ
  jsonOk : Bool
  forwardedFor : String
  speedOutcome : Option ℚ
deriving DecidableEq, Repr

/-- calculateScore from checker.go lines 175-192: sets LastChecked to
now and Score to max(0, latencyScore + speedScore + anonymityScore -
failPenalty), computed from the fields the proxy currently holds. -/
def calculateScore (now : ℚ) (p : Proxy) : Proxy :=
  let latencyScore := (1 - min (p.latency / 5) 1) * 40
  let speedScore := min (p.speed / 1000) 1 * 40
  let anonymityScore : ℚ :=
    if p.anonymity = "Elite" then 20 else if p.anonymity = "Anonymous" then 10 else 0
  let failPenalty : ℚ := (p.failCount : ℚ) * 5
  { p with lastChecked := now,
           score := max 0 (latencyScore + speedScore + anonymityScore - failPenalty) }

/-- checkProxy from checker.go lines 73-102.  On createProxyClient or
reachability failure it returns the error immediately (result none)
without touching the proxy.  On reachability success it records the
measured latency, classifies anonymity from the echoed headers when
the JSON decodes, then stores the checkSpeed result with the error
discarded (speed, _ := c.checkSpeed(client)), and returns
(Latency, Anonymity, nil). -/
def checkProxy (env : ProbeEnv) (p : Proxy) : Proxy × Option (ℚ × String) :=
  if env.clientOk = false then (p, none)
  else if env.reachOk = false then (p, none)
  else
    let p1 := { p with latency := env.measuredLatency }
    let p2 :=
      if env.jsonOk then
        { p1 with anonymity := if env.forwardedFor ≠ "" then "Anonymous" else "Elite" }
      else p1
    let p3 := { p2 with speed := env.speedOutcome.getD 0 }
    (p3, some (p3.latency, p3.anonymity))

/-- CheckConnectivityAndSpeed from checker.go lines 66-70: first
calculateScore, then checkProxy. -/
def CheckConnectivityAndSpeed (env : ProbeEnv) (p : Proxy) : Proxy × Option (ℚ × String) :=
  checkProxy env (calculateScore env.now p)

/-- The composite-score formula from the specification (section 4.2),
as a function of the metric values it is applied to. -/
def scoreFormula (latency speed : ℚ) (anonymity : String) (failCount : ℕ) : ℚ :=
  max 0 ((1 - min (latency / 5) 1) * 40 + min (speed / 1000) 1 * 40 +
    (if anonymity = "Elite" then 20 else if anonymity = "Anonymous" then 10 else 0) -
    (failCount : ℚ) * 5)

/-! ## GatewayServer (src/server/server.go)

The SOCKS5 session is modelled as the trace of externally visible
events handleConnection performs, with the outcome of each fallible
step an explicit parameter. -/

/-- Externally visible events of one SOCKS5 session. -/
inductive Event where
  | writeAuthReply
  | writeConnectReply (frame : List ℕ)
  | selectUpstream
  | upstreamDialed
  | relayData
deriving DecidableEq, Repr

/-- Outcomes of the fallible steps of handleConnection. -/
structure ConnEnv where
  authOk : Bool
  parseOk : Bool
  haveProxy : Bool
  dialOk : Bool
deriving DecidableEq, Repr

/-- The fixed SOCKS5 success reply written at server.go line 197. -/
def successFrame : List ℕ := [5, 0, 0, 1, 0, 0, 0, 0, 0, 0]

/-- Event trace of handleConnection, server.go lines 105-134: auth
reply (socks5Auth line 153), then — inside socks5Connect, line 197,
immediately after the request parses — the success frame, then
GetNextProxy, then dialUpstream, then forwardData.  Each failing step
ends the trace. -/
def handleConnectionTrace (env : ConnEnv) : List Event :=
  if env.authOk = false then [] else
  Event.writeAuthReply ::
    (if env.parseOk = false then [] else
      Event.writeConnectReply successFrame ::
        (if env.haveProxy = false then [] else
          Event.selectUpstream ::
            (if env.dialOk = false then [] else
              [Event.upstreamDialed, Event.relayData])))

/-- The dial attempt dialUpstream makes, identifying which endpoint is
contacted. -/
inductive DialTarget where
  | throughCandidate (candidateAddress targetAddr : String)
  | direct (targetAddr : String)
deriving DecidableEq, Repr

/-- dialUpstream from server.go lines 205-214: build a SOCKS5 dialer
for the candidate address; if that construction fails and the
candidate protocol is http or https, dial the target directly
(net.DialTimeout), otherwise return the construction error with no
connection attempt (none); on construction success, dial the target
through the candidate. -/
def dialUpstream (ctorFails : Bool) (p : Proxy) (targetAddr : String) : Option DialTarget :=
  if ctorFails then
    if p.protocol = "http" || p.protocol = "https" then some (DialTarget.direct targetAddr)
    else none
  else some (DialTarget.throughCandidate p.address targetAddr)

/-! ## Pointer model for snapshot aliasing (rotator.go GetRawProxies /
GetValidProxies)

The pool stores slices of Proxy POINTERS.  References are naturals
into a heap; reading the pool dereferences each pointer. -/

/-- Element-wise copy of a pointer slice, modelling
proxiesCopy := make(...); copy(proxiesCopy, r.validProxies) at
rotator.go lines 89-90 and 119-120: a new slice holding the same
pointers. -/
def copySlice (l : List ℕ) : List ℕ := l.map id

/-- GetRawProxies from rotator.go lines 86-92 on the pointer model. -/
def GetRawProxies (rawRefs : List ℕ) : List ℕ := copySlice rawRefs

/-- GetValidProxies from rotator.go lines 116-122 on the pointer
model. -/
def GetValidProxies (validRefs : List ℕ) : List ℕ := copySlice validRefs

/-- Dereference every pointer of a pool slice: the candidates an
observer of the pool sees. -/
def readList (h : ℕ → Proxy) (refs : List ℕ) : List Proxy := refs.map h

/-- Heap update: assignment through a Proxy pointer
(e.g. snapshot[0].Latency = v). -/
def writeProxy (h : ℕ → Proxy) (r : ℕ) (q : Proxy) : ℕ → Proxy :=
  fun i => if i = r then q else h i

/-- A concrete candidate used in counterexamples and witnesses. -/
def sampleProxy : Proxy :=
  { address := "1.2.3.4:1080", protocol := "socks5", latency := 1, speed := 100,
    anonymity := "Elite", score := 50, lastChecked := 0, failCount := 0,
    isPremium := false, region := "" }

/-- A second concrete candidate with a distinct address. -/
def sampleProxy2 : Proxy :=
  { address := "5.6.7.8:8080", protocol := "http", latency := 2, speed := 10,
    anonymity := "Anonymous", score := 30, lastChecked := 0, failCount := 1,
    isPremium := false, region := "" }

/-- A candidate that has never been probed: unset metrics. -/
def freshProxy : Proxy :=
  { address := "9.9.9.9:1080", protocol := "socks5", latency := 0, speed := 0,
    anonymity := "", score := 0, lastChecked := 0, failCount := 0,
    isPremium := false, region := "" }

/-- Probe outcomes where everything succeeds: latency 1s, no
forwarded-for header (Elite), download speed 500 KB/s. -/
def envAllOk : ProbeEnv :=
  { now := 7, clientOk := true, reachOk := true, measuredLatency := 1,
    jsonOk := true, forwardedFor := "", speedOutcome := some 500 }

/-! ## Helper lemmas -/

/-- Inserting by latency is a permutation with consing. -/
theorem insertByLatency_perm (p : Proxy) (l : List Proxy) :
    (insertByLatency p l).Perm (p :: l) := by
  induction l with
  | nil => exact List.Perm.refl _
  | cons q l ih =>
    rw [insertByLatency]
    by_cases h : q.latency < p.latency
    · rw [if_pos h]
      exact (ih.cons q).trans (List.Perm.swap p q l)
    · rw [if_neg h]

/-- Sorting by latency permutes the input. -/
theorem sortByLatency_perm (l : List Proxy) : (sortByLatency l).Perm l := by
  induction l with
  | nil => exact List.Perm.refl _
  | cons p l ih =>
    rw [sortByLatency]
    exact (insertByLatency_perm p (sortByLatency l)).trans (ih.cons p)

/-- Inserting by latency preserves sortedness by latency. -/
theorem insertByLatency_pairwise (p : Proxy) (l : List Proxy)
    (h : l.Pairwise (fun a b => a.latency ≤ b.latency)) :
    (insertByLatency p l).Pairwise (fun a b => a.latency ≤ b.latency) := by
  induction l with
  | nil => simp [insertByLatency]
  | cons q l ih =>
    rw [insertByLatency]
    by_cases hq : q.latency < p.latency
    · rw [if_pos hq]
      rw [List.pairwise_cons] at h ⊢
      obtain ⟨hql, hl⟩ := h
      refine ⟨?_, ih hl⟩
      intro x hx
      rcases List.mem_cons.mp ((insertByLatency_perm p l).mem_iff.mp hx) with rfl | hxl
      · exact le_of_lt hq
      · exact hql x hxl
    · rw [if_neg hq]
      rw [List.pairwise_cons]
      refine ⟨?_, h⟩
      intro x hx
      rcases List.mem_cons.mp hx with rfl | hxl
      · exact le_of_not_lt hq
      · exact le_trans (le_of_not_lt hq) ((List.pairwise_cons.mp h).1 x hxl)

/-- Sorting by latency yields a list sorted by latency. -/
theorem sortByLatency_pairwise (l : List Proxy) :
    (sortByLatency l).Pairwise (fun a b => a.latency ≤ b.latency) := by
  induction l with
  | nil => simp [sortByLatency]
  | cons p l ih => exact insertByLatency_pairwise p _ ih

/-- Stability of insertion: restricting to one latency value, insertion
prepends the new element when it has that latency (every element it was
moved past has strictly smaller latency) and changes nothing
otherwise. -/
theorem filter_insertByLatency (v : ℚ) (p : Proxy) (l : List Proxy) :
    (insertByLatency p l).filter (fun q => decide (q.latency = v))
      = if p.latency = v
        then p :: l.filter (fun q => decide (q.latency = v))
        else l.filter (fun q => decide (q.latency = v)) := by
  induction l with
  | nil => by_cases h : p.latency = v <;> simp [insertByLatency, h]
  | cons q l ih =>
    rw [insertByLatency]
    by_cases hq : q.latency < p.latency
    · rw [if_pos hq]
      by_cases hv : p.latency = v
      · have hqv : ¬ q.latency = v := by
          rw [← hv]; exact ne_of_lt hq
        simp [List.filter_cons, hqv, ih, hv]
      · simp [List.filter_cons, ih, hv]
    · rw [if_neg hq]
      by_cases hv : p.latency = v <;> simp [List.filter_cons, hv]

/-- Stability of the sort: elements of equal latency keep their
original relative order. -/
theorem filter_sortByLatency (v : ℚ) (l : List Proxy) :
    (sortByLatency l).filter (fun q => decide (q.latency = v))
      = l.filter (fun q => decide (q.latency = v)) := by
  induction l with
  | nil => rfl
  | cons p l ih =>
    rw [sortByLatency, filter_insertByLatency]
    by_cases hv : p.latency = v <;> simp [List.filter_cons, hv, ih]

/-- Claim C5: for every valid set and every maxAge, CleanupProxies
removes exactly the valid candidates with failCount >= 5 or with
now - lastChecked > maxAge; every other candidate is retained in its
original relative order (the result is the filter of the input by the
keep predicate, and a sublist of the input). -/
theorem cleanup_removes_exactly (now maxAge : ℚ) (l : List Proxy) :
    CleanupProxies now maxAge l
      = l.filter (fun p => !(decide (5 ≤ p.failCount) || decide (maxAge < now - p.lastChecked)))
    ∧ (CleanupProxies now maxAge l).Sublist l := by
  constructor
  · unfold CleanupProxies
    congr 1
    funext p
    by_cases hf : p.failCount < 5 <;> by_cases ht : now - p.lastChecked ≤ maxAge
    · simp [hf, ht, not_le.mpr hf, not_lt.mpr ht]
    · simp [hf, ht, not_le.mpr hf, not_le.mp ht]
    · simp [hf, ht, not_lt.mp hf, not_lt.mpr ht]
    · simp [hf, ht, not_lt.mp hf, not_le.mp ht]
  · exact List.filter_sublist l

/-- Claim C6: GetFilteredAndSortedProxies returns exactly the valid
candidates passing both bounds (as a permutation of the filtered list,
with the stated membership characterisation), sorted ascending by
latency, and stably: candidates of equal latency keep their original
relative order. -/
theorem filteredSorted_correct (maxLatency minSpeed : ℚ) (l : List Proxy) :
    (GetFilteredAndSortedProxies maxLatency minSpeed l).Perm
        (l.filter (passesFilter maxLatency minSpeed))
    ∧ (∀ p, p ∈ GetFilteredAndSortedProxies maxLatency minSpeed l ↔
        p ∈ l ∧ (maxLatency < 0 ∨ p.latency ≤ maxLatency)
          ∧ (minSpeed < 0 ∨ p.speed ≥ minSpeed))
    ∧ (GetFilteredAndSortedProxies maxLatency minSpeed l).Pairwise
        (fun a b => a.latency ≤ b.latency)
    ∧ ∀ v, (GetFilteredAndSortedProxies maxLatency minSpeed l).filter
          (fun q => decide (q.latency = v))
        = (l.filter (passesFilter maxLatency minSpeed)).filter
          (fun q => decide (q.latency = v)) := by
  refine ⟨sortByLatency_perm _, ?_, sortByLatency_pairwise _, fun v => filter_sortByLatency v _⟩
  intro p
  unfold GetFilteredAndSortedProxies
  rw [(sortByLatency_perm _).mem_iff, List.mem_filter]
  unfold passesFilter
  simp [and_assoc]

/-- Invariant of the AddRawProxies fold: when the seen list holds
exactly the addresses of the current list and those addresses are
distinct, the fold keeps the addresses distinct, keeps the seen list
in sync, only appends input elements whose address was unseen, and
ends with every input address present. -/
theorem addRaw_fold_inv (input : List Proxy) :
    ∀ cur : List Proxy, ∀ seen : List String,
    (∀ a, a ∈ seen ↔ a ∈ cur.map (fun p => p.address)) →
    (cur.map (fun p => p.address)).Nodup →
    ((input.foldl addRawStep (cur, seen)).1.map (fun p => p.address)).Nodup
    ∧ (∃ extra, (input.foldl addRawStep (cur, seen)).1 = cur ++ extra
        ∧ ∀ p ∈ extra, p ∈ input ∧ p.address ∉ seen)
    ∧ (∀ p ∈ input,
        p.address ∈ (input.foldl addRawStep (cur, seen)).1.map (fun q => q.address)) := by
  induction input with
  | nil =>
    intro cur seen _ hnd
    exact ⟨hnd, ⟨[], by simp⟩, by simp⟩
  | cons p input ih =>
    intro cur seen hseen hnd
    rw [List.foldl_cons]
    by_cases hp : p.address ∈ seen
    · rw [show addRawStep (cur, seen) p = (cur, seen) from if_pos hp]
      obtain ⟨h1, ⟨extra, he, hextra⟩, h3⟩ := ih cur seen hseen hnd
      refine ⟨h1, ⟨extra, he, fun q hq => ⟨List.mem_cons_of_mem p (hextra q hq).1,
        (hextra q hq).2⟩⟩, ?_⟩
      intro q hq
      rcases List.mem_cons.mp hq with rfl | hq'
      · rw [he, List.map_append]
        exact List.mem_append_left _ ((hseen q.address).mp hp)
      · exact h3 q hq'
    · rw [show addRawStep (cur, seen) p = (cur ++ [p], seen ++ [p.address]) from if_neg hp]
      have hpn : p.address ∉ cur.map (fun q => q.address) := fun hc => hp ((hseen _).mpr hc)
      have hseen2 : ∀ a, a ∈ seen ++ [p.address] ↔ a ∈ (cur ++ [p]).map (fun q => q.address) := by
        intro a
        rw [List.map_append, List.mem_append, List.mem_append, hseen a]
        exact Iff.rfl
      have hnd2 : ((cur ++ [p]).map (fun q => q.address)).Nodup := by
        rw [List.map_append]
        refine List.Nodup.append hnd (by simp) ?_
        intro a ha hb
        simp only [List.map_cons, List.map_nil, List.mem_singleton] at hb
        exact hpn (hb ▸ ha)
      obtain ⟨h1, ⟨extra, he, hextra⟩, h3⟩ := ih (cur ++ [p]) (seen ++ [p.address]) hseen2 hnd2
      refine ⟨h1, ⟨p :: extra, by rw [he, List.append_assoc]; rfl, ?_⟩, ?_⟩
      · intro q hq
        rcases List.mem_cons.mp hq with rfl | hq'
        · exact ⟨List.mem_cons_self _ _, hp⟩
        · have := hextra q hq'
          refine ⟨List.mem_cons_of_mem p this.1, fun hs => this.2 (List.mem_append_left _ hs)⟩
      · intro q hq
        rcases List.mem_cons.mp hq with rfl | hq'
        · rw [he, List.map_append]
          exact List.mem_append_left _ (by simp)
        · exact h3 q hq'

/-- Claim C9: starting from a raw set with distinct addresses, each
AddRawProxies call keeps all addresses distinct, appends (after the
retained original list) only input candidates whose address was not
already in the raw set, and ends with every input address present. -/
theorem addRaw_dedup (raw input : List Proxy)
    (h : (raw.map (fun p => p.address)).Nodup) :
    ((AddRawProxies raw input).map (fun p => p.address)).Nodup
    ∧ (∃ extra, AddRawProxies raw input = raw ++ extra
        ∧ ∀ p ∈ extra, p ∈ input ∧ p.address ∉ raw.map (fun q => q.address))
    ∧ ∀ p ∈ input, p.address ∈ (AddRawProxies raw input).map (fun q => q.address) := by
  have hseen : ∀ a : String, a ∈ raw.map (fun p => p.address)
      ↔ a ∈ raw.map (fun p => p.address) := fun a => Iff.rfl
  obtain ⟨h1, ⟨extra, he, hextra⟩, h3⟩ := addRaw_fold_inv input raw
    (raw.map (fun p => p.address)) hseen h
  exact ⟨h1, ⟨extra, he, hextra⟩, h3⟩

/-- Witness for addRaw_dedup: a raw set of one candidate and an
overlapping input containing that candidate again plus a fresh one. -/
theorem addRaw_dedup_witness :
    ((AddRawProxies [sampleProxy] [sampleProxy, sampleProxy2]).map (fun p => p.address)).Nodup
    ∧ (∃ extra, AddRawProxies [sampleProxy] [sampleProxy, sampleProxy2] = [sampleProxy] ++ extra
        ∧ ∀ p ∈ extra, p ∈ [sampleProxy, sampleProxy2]
            ∧ p.address ∉ [sampleProxy].map (fun q => q.address))
    ∧ ∀ p ∈ ([sampleProxy, sampleProxy2] : List Proxy),
        p.address ∈ (AddRawProxies [sampleProxy] [sampleProxy, sampleProxy2]).map
          (fun q => q.address) :=
  addRaw_dedup [sampleProxy] [sampleProxy, sampleProxy2] (by decide)

/-- Cumulative weight steps through a cons. -/
theorem cumWeight_cons (p : Proxy) (l : List Proxy) (k : ℕ) :
    cumWeight (p :: l) (k + 1) = weight p + cumWeight l k := by
  simp [cumWeight, List.take_succ_cons]

/-- The selection loop returns the element at the first index whose
accumulated cumulative weight reaches randScore, and nothing when no
index qualifies. -/
theorem selectLoop_eq (r : ℚ) (l : List Proxy) :
    ∀ acc : ℚ, selectLoop r acc l
      = match (List.range l.length).find? (fun i => decide (acc + cumWeight l (i + 1) ≥ r)) with
        | some i => l[i]?
        | none => none := by
  induction l with
  | nil => intro acc; rfl
  | cons p l ih =>
    intro acc
    rw [selectLoop]
    have hlen : (p :: l).length = l.length + 1 := rfl
    rw [hlen, List.range_succ_eq_map, List.find?_cons]
    have hc1 : cumWeight (p :: l) (0 + 1) = weight p := by
      rw [cumWeight_cons]; simp [cumWeight]
    by_cases h : acc + weight p ≥ r
    · rw [if_pos h]
      have hd : decide (acc + cumWeight (p :: l) (0 + 1) ≥ r) = true := by
        rw [hc1]; exact decide_eq_true h
      rw [hd]
      simp
    · rw [if_neg h]
      have hd : decide (acc + cumWeight (p :: l) (0 + 1) ≥ r) = false := by
        rw [hc1]; exact decide_eq_false h
      rw [hd]
      rw [ih (acc + weight p)]
      have hfun : ((fun i => decide (acc + cumWeight (p :: l) (i + 1) ≥ r)) ∘ Nat.succ)
          = fun i => decide (acc + weight p + cumWeight l (i + 1) ≥ r) := by
        funext i
        show decide (acc + cumWeight (p :: l) (i + 1 + 1) ≥ r) = _
        rw [cumWeight_cons p l (i + 1), ← add_assoc]
      rw [List.find?_map, hfun]
      cases hfind : (List.range l.length).find?
          (fun i => decide (acc + weight p + cumWeight l (i + 1) ≥ r)) with
      | none => rfl
      | some i => simp

/-- The total weight is positive on a non-empty list of candidates
whose latency and throughput are non-negative. -/
theorem totalScore_pos (valid : List Proxy) (hne : valid ≠ [])
    (hlat : ∀ p ∈ valid, 0 ≤ p.latency) (hspd : ∀ p ∈ valid, 0 ≤ p.speed) :
    0 < totalScore valid := by
  unfold totalScore
  apply List.sum_pos
  · intro w hw
    obtain ⟨p, hp, rfl⟩ := List.mem_map.mp hw
    unfold weight
    have h1 : 0 < p.latency + 1 / 10 := by
      have := hlat p hp; linarith
    have h2 : 0 < 1 / (p.latency + 1 / 10) := by positivity
    have h3 : 0 ≤ p.speed * (1 / 10) := by
      have := hspd p hp; positivity
    linarith
  · simpa using hne

/-- Claim C1: the weighted draw.  With the random draw modelled as
u in [0,1), GetNextProxy equals the specification selector applied to
r = u * total (first candidate whose cumulative weight reaches r, last
candidate as fallback, none on an empty set), and the drawn r lies in
[0, total) on a non-empty set of candidates with non-negative latency
and throughput. -/
theorem getNextProxy_weighted (valid : List Proxy) (u : ℚ)
    (hlat : ∀ p ∈ valid, 0 ≤ p.latency) (hspd : ∀ p ∈ valid, 0 ≤ p.speed)
    (hu0 : 0 ≤ u) (hu1 : u < 1) :
    GetNextProxy valid u = specSelectWeighted valid (u * totalScore valid)
    ∧ GetNextProxy [] u = none
    ∧ (valid ≠ [] →
        0 ≤ u * totalScore valid ∧ u * totalScore valid < totalScore valid) := by
  refine ⟨?_, rfl, ?_⟩
  · cases valid with
    | nil => rfl
    | cons p l =>
      show (match selectLoop (u * totalScore (p :: l)) 0 (p :: l) with
            | some q => some q
            | none => (p :: l).getLast?)
          = match (List.range (p :: l).length).find?
                (fun i => decide (cumWeight (p :: l) (i + 1) ≥ u * totalScore (p :: l))) with
            | some i => (p :: l)[i]?
            | none => (p :: l).getLast?
      rw [selectLoop_eq (u * totalScore (p :: l)) (p :: l) 0]
      have hfun : (fun i => decide (0 + cumWeight (p :: l) (i + 1) ≥ u * totalScore (p :: l)))
          = fun i => decide (cumWeight (p :: l) (i + 1) ≥ u * totalScore (p :: l)) := by
        funext i; rw [zero_add]
      rw [hfun]
      cases hfind : (List.range (p :: l).length).find?
          (fun i => decide (cumWeight (p :: l) (i + 1) ≥ u * totalScore (p :: l))) with
      | none => rfl
      | some i =>
        have hi : i < (p :: l).length := List.mem_range.mp (List.mem_of_find?_eq_some hfind)
        obtain ⟨x, hx⟩ : ∃ x, (p :: l)[i]? = some x :=
          ⟨(p :: l)[i], List.getElem?_eq_getElem hi⟩
        simp [hx]
  · intro hne
    have ht := totalScore_pos valid hne hlat hspd
    constructor
    · exact mul_nonneg hu0 (le_of_lt ht)
    · calc u * totalScore valid < 1 * totalScore valid := by
            exact mul_lt_mul_of_pos_right hu1 ht
        _ = totalScore valid := one_mul _

/-- Witness for getNextProxy_weighted at a singleton pool and u = 1/2. -/
theorem getNextProxy_weighted_witness :
    GetNextProxy [sampleProxy] (1 / 2)
        = specSelectWeighted [sampleProxy] (1 / 2 * totalScore [sampleProxy])
    ∧ GetNextProxy [] (1 / 2) = none
    ∧ (([sampleProxy] : List Proxy) ≠ [] →
        0 ≤ 1 / 2 * totalScore [sampleProxy]
          ∧ 1 / 2 * totalScore [sampleProxy] < totalScore [sampleProxy]) :=
  getNextProxy_weighted [sampleProxy] (1 / 2)
    (by intro p hp; rw [List.mem_singleton] at hp; subst hp; norm_num [sampleProxy])
    (by intro p hp; rw [List.mem_singleton] at hp; subst hp; norm_num [sampleProxy])
    (by norm_num) (by norm_num)

/-- Claim C3 counterexample: for a fresh candidate probed successfully
with latency 1s, speed 500 KB/s, Elite anonymity, the score after the
call is 40 — the formula applied to the values held BEFORE the probe —
while the formula applied to the values measured by that probe gives
72; so after this successful probe the score differs from the formula
on the measured metrics. -/
theorem score_counterexample :
    (CheckConnectivityAndSpeed envAllOk freshProxy).2.isSome = true
    ∧ (CheckConnectivityAndSpeed envAllOk freshProxy).1.latency = 1
    ∧ (CheckConnectivityAndSpeed envAllOk freshProxy).1.speed = 500
    ∧ (CheckConnectivityAndSpeed envAllOk freshProxy).1.anonymity = "Elite"
    ∧ (CheckConnectivityAndSpeed envAllOk freshProxy).1.failCount = 0
    ∧ (CheckConnectivityAndSpeed envAllOk freshProxy).1.score = 40
    ∧ scoreFormula 1 500 "Elite" 0 = 72
    ∧ (40 : ℚ) ≠ 72 := by
  have hne1 : ("" : String) ≠ "Elite" := by decide
  have hne2 : ("" : String) ≠ "Anonymous" := by decide
  refine ⟨?_, ?_, ?_, ?_, ?_, ?_, ?_, ?_⟩ <;>
    norm_num [CheckConnectivityAndSpeed, checkProxy, calculateScore, scoreFormula,
      envAllOk, freshProxy, hne1, hne2]

/-- Helper: the score after any CheckConnectivityAndSpeed call is the
formula applied to the fields held before the call. -/
theorem check_result_score (env : ProbeEnv) (p : Proxy) :
    (CheckConnectivityAndSpeed env p).1.score
      = scoreFormula p.latency p.speed p.anonymity p.failCount := by
  unfold CheckConnectivityAndSpeed checkProxy calculateScore scoreFormula
  by_cases h1 : env.clientOk = false
  · simp [h1]
  · by_cases h2 : env.reachOk = false
    · simp [h1, h2]
    · by_cases h3 : env.jsonOk <;> simp [h1, h2, h3]

/-- Helper: lastChecked after any CheckConnectivityAndSpeed call is
the probe time. -/
theorem check_result_lastChecked (env : ProbeEnv) (p : Proxy) :
    (CheckConnectivityAndSpeed env p).1.lastChecked = env.now := by
  unfold CheckConnectivityAndSpeed checkProxy calculateScore
  by_cases h1 : env.clientOk = false
  · simp [h1]
  · by_cases h2 : env.reachOk = false
    · simp [h1, h2]
    · by_cases h3 : env.jsonOk <;> simp [h1, h2, h3]

/-- Claim C3 amended: the score is recomputed on every probe call, but
from the latency, throughput, anonymity and failCount values held
before the probe (calculateScore runs first); the probe then updates
the metrics without touching the score, so after every call —
successful or not — the score equals the formula applied to the
pre-probe values. -/
theorem score_from_prior_values (env : ProbeEnv) (p : Proxy) :
    (CheckConnectivityAndSpeed env p).1.score
      = scoreFormula p.latency p.speed p.anonymity p.failCount :=
  check_result_score env p

/-- Claim C4 counterexample: with the reachability probe succeeding and
the throughput (download) probe failing, the call does NOT return an
error: it succeeds, records speed 0, and keeps the measured latency. -/
theorem checkSpeed_error_swallowed :
    (CheckConnectivityAndSpeed { envAllOk with speedOutcome := none } freshProxy).2.isSome = true
    ∧ (CheckConnectivityAndSpeed { envAllOk with speedOutcome := none } freshProxy).1.speed = 0
    ∧ (CheckConnectivityAndSpeed { envAllOk with speedOutcome := none } freshProxy).1.latency = 1 := by
  refine ⟨?_, ?_, ?_⟩ <;>
    norm_num [CheckConnectivityAndSpeed, checkProxy, calculateScore, envAllOk, freshProxy]

/-- Claim C4 amended: if client construction or the reachability probe
fails, the call returns an error immediately and the candidate keeps
its previously recorded latency; a throughput-probe failure is
swallowed (speed, _ := checkSpeed): the call succeeds, throughput is
recorded as 0, and the latency measured by the reachability probe
remains recorded. -/
theorem probe_error_handling (now lat : ℚ) (fwd : String) (reach j : Bool)
    (sp : Option ℚ) (p : Proxy) :
    (CheckConnectivityAndSpeed ⟨now, false, reach, lat, j, fwd, sp⟩ p).2 = none
    ∧ (CheckConnectivityAndSpeed ⟨now, false, reach, lat, j, fwd, sp⟩ p).1.latency = p.latency
    ∧ (CheckConnectivityAndSpeed ⟨now, true, false, lat, j, fwd, sp⟩ p).2 = none
    ∧ (CheckConnectivityAndSpeed ⟨now, true, false, lat, j, fwd, sp⟩ p).1.latency = p.latency
    ∧ (CheckConnectivityAndSpeed ⟨now, true, true, lat, j, fwd, none⟩ p).2.isSome = true
    ∧ (CheckConnectivityAndSpeed ⟨now, true, true, lat, j, fwd, none⟩ p).1.speed = 0
    ∧ (CheckConnectivityAndSpeed ⟨now, true, true, lat, j, fwd, none⟩ p).1.latency = lat := by
  refine ⟨?_, ?_, ?_, ?_, ?_, ?_, ?_⟩ <;>
    by_cases h3 : j <;>
      simp [CheckConnectivityAndSpeed, checkProxy, calculateScore, h3]

/-- Claim C10: every call sets lastChecked to the probe time and
recomputes the score from the values held before any network probe;
when the reachability probe fails the call errors out with latency,
throughput and anonymity untouched, while lastChecked and score have
already been updated. -/
theorem update_before_probe (env : ProbeEnv) (p : Proxy) (now lat : ℚ)
    (fwd : String) (j : Bool) (sp : Option ℚ) :
    (CheckConnectivityAndSpeed env p).1.lastChecked = env.now
    ∧ (CheckConnectivityAndSpeed env p).1.score
        = scoreFormula p.latency p.speed p.anonymity p.failCount
    ∧ (CheckConnectivityAndSpeed ⟨now, true, false, lat, j, fwd, sp⟩ p).2 = none
    ∧ (CheckConnectivityAndSpeed ⟨now, true, false, lat, j, fwd, sp⟩ p).1.latency = p.latency
    ∧ (CheckConnectivityAndSpeed ⟨now, true, false, lat, j, fwd, sp⟩ p).1.speed = p.speed
    ∧ (CheckConnectivityAndSpeed ⟨now, true, false, lat, j, fwd, sp⟩ p).1.anonymity = p.anonymity
    ∧ (CheckConnectivityAndSpeed ⟨now, true, false, lat, j, fwd, sp⟩ p).1.lastChecked = now
    ∧ (CheckConnectivityAndSpeed ⟨now, true, false, lat, j, fwd, sp⟩ p).1.score
        = scoreFormula p.latency p.speed p.anonymity p.failCount := by
  refine ⟨check_result_lastChecked env p, check_result_score env p, ?_, ?_, ?_, ?_,
    check_result_lastChecked ⟨now, true, false, lat, j, fwd, sp⟩ p,
    check_result_score ⟨now, true, false, lat, j, fwd, sp⟩ p⟩
  all_goals simp [CheckConnectivityAndSpeed, checkProxy, calculateScore]

/-- Claim C2 counterexample: in a session where the CONNECT request
parses but the upstream dial fails, the fixed success frame is still
written to the client although the upstream connection is never
established — so the frame is not written "on successful upstream
dial" and is written before (indeed without) the upstream connection.
-/
theorem connectReply_counterexample :
    Event.writeConnectReply successFrame ∈ handleConnectionTrace ⟨true, true, true, false⟩
    ∧ Event.upstreamDialed ∉ handleConnectionTrace ⟨true, true, true, false⟩ := by
  decide

/-- Claim C2 amended: the fixed success frame 05 00 00 01 00 00 00 00
00 00 is written immediately after the CONNECT request parses
successfully — before upstream selection and dialing — and the
upstream dial, which only ever happens after it, succeeds exactly when
a candidate is available and the dial succeeds. -/
theorem connectReply_position (env : ConnEnv)
    (h1 : env.authOk = true) (h2 : env.parseOk = true) :
    ∃ post, handleConnectionTrace env
        = Event.writeAuthReply :: Event.writeConnectReply successFrame :: post
      ∧ (Event.upstreamDialed ∈ post ↔ env.haveProxy = true ∧ env.dialOk = true) := by
  obtain ⟨a, pr, hav, d⟩ := env
  simp only at h1 h2
  subst h1; subst h2
  cases hav <;> cases d <;> exact ⟨_, rfl, by simp [handleConnectionTrace]⟩

/-- Witness for connectReply_position: the all-success session. -/
theorem connectReply_position_witness :
    ∃ post, handleConnectionTrace ⟨true, true, true, true⟩
        = Event.writeAuthReply :: Event.writeConnectReply successFrame :: post
      ∧ (Event.upstreamDialed ∈ post ↔ true = true ∧ true = true) :=
  connectReply_position ⟨true, true, true, true⟩ rfl rfl

/-- Claim C7: when constructing the SOCKS5 dialer fails, dialUpstream
dials the target directly — bypassing the candidate — exactly when the
candidate protocol is http or https, and otherwise returns the error
with no connection attempt; when construction succeeds the target is
dialed through the candidate. -/
theorem dialUpstream_fallback (p : Proxy) (t : String) :
    dialUpstream true p t
      = (if p.protocol = "http" ∨ p.protocol = "https"
         then some (DialTarget.direct t) else none)
    ∧ dialUpstream false p t = some (DialTarget.throughCandidate p.address t) := by
  constructor
  · by_cases h : p.protocol = "http" ∨ p.protocol = "https"
    · rw [if_pos h]
      rcases h with h | h <;> simp [dialUpstream, h]
    · rw [if_neg h]
      push_neg at h
      simp [dialUpstream, h.1, h.2]
  · simp [dialUpstream]

/-- Claim C8 (code bug evidence): the snapshot returned by
GetValidProxies over a pool holding one pointer is the same pointer
list, and an assignment through the snapshot's pointer changes the
candidate the pool reads: the snapshot is a shallow copy of pointers,
not an independent deep copy. -/
theorem snapshot_aliasing :
    GetValidProxies [0] = [0]
    ∧ GetRawProxies [0] = [0]
    ∧ readList (writeProxy (fun _ => sampleProxy) 0 { sampleProxy with latency := 99 }) [0]
        ≠ readList (fun _ => sampleProxy) [0] := by
  refine ⟨rfl, rfl, ?_⟩
  intro h
  have h2 := congrArg (fun l => (l.headD sampleProxy).latency) h
  norm_num [readList, writeProxy, sampleProxy] at h2

end GoProxy
